/-
Verification of the game-accessibility submission form (src/main.py).

Shallow embedding notes:
* Python floats are modelled as exact rationals (ℚ); `round(x, 2)` is
  modelled as rounding `x * 100` to the nearest integer and dividing by 100.
* A Python dict of selections is modelled as a total function
  `String → Option String` (`dict.get(k, default)` returns `none` when the
  key is absent), and, where the code iterates over `.items()`, as an
  association list `List (String × String)`.
* The database is a record of tables; a SQL `SELECT id ... WHERE name = ...`
  followed by `fetchone()[0]` is a lookup returning `Option Nat` (`none`
  models the raised exception on an empty result).  The psycopg2
  transaction is modelled by returning the original database state on the
  exception path (no commit ever happens there) and the updated state only
  when `conn.commit()` is reached.
* External failures (connection loss, a failing read) are modelled as
  boolean oracle parameters.
-/
import Mathlib

namespace GASEngineForm

/-- The static accessibility taxonomy, from `CATEGORIES` in src/main.py:
each category name with its ordered list of option names. -/
def CATEGORIES : List (String × List String) :=
  [("Visual Accessibility",
    ["Subtitles & Closed Captions",
     "Colorblind Modes",
     "UI Customization",
     "Brightness & Contrast Adjustment",
     "Motion Blur Reduction",
     "Field of View (FOV) Adjustment",
     "Screen Shake Reduction"]),
   ("Audio Accessibility",
    ["Volume Controls",
     "Visual Audio Cues",
     "Mono Audio"]),
   ("Motor Accessibility",
    ["Controller Remapping",
     "Sensitivity Adjustment",
     "Button Hold/Toggle Options",
     "Aim Assist",
     "Motor Difficulty Settings",
     "Input Lag Reduction"]),
   ("Cognitive Accessibility",
    ["Cognitive Difficulty Settings",
     "Clear UI Design",
     "Tutorials & Guidance",
     "Objective Markers & Navigation",
     "Narrative Clarity",
     "Reduced Time Limits"]),
   ("General Accessibility Features",
    ["Accessibility Menu",
     "Presets",
     "Customization Saving",
     "Accessibility Information"]),
   ("Localization",
    ["Text Language Options",
     "Audio Language Options",
     "Subtitle Language Options",
     "UI Language Options"])]

/-- Models `NUM_CATEGORIES = len(CATEGORIES)` from src/main.py. -/
def NUM_CATEGORIES : Nat := CATEGORIES.length

/-- Models `EQUAL_WEIGHT = 20 / NUM_CATEGORIES` from src/main.py (float
division, modelled in ℚ). -/
def EQUAL_WEIGHT : ℚ := 20 / (NUM_CATEGORIES : ℚ)

/-- Models the `NEW_WEIGHTS` dict comprehension from src/main.py: the
dict giving every category the equal weight. -/
def NEW_WEIGHTS : List (String × ℚ) :=
  CATEGORIES.map (fun category => (category.1, EQUAL_WEIGHT))

/-- A selection mapping: what `selections.get(option, False)` yields for each
option name; `none` models an absent key. -/
def Selections : Type := String → Option String

/-- The points the `if/elif` chain of `calculate_score` awards one option:
1 for "Basic", 2 for "Customizable", 3 for "Extensive", otherwise 0. -/
def optionPoints (v : Option String) : Nat :=
  if v = some "Basic" then 1
  else if v = some "Customizable" then 2
  else if v = some "Extensive" then 3
  else 0

/-- The inner loop of `calculate_score`: `category_score`, the raw point sum
over the options declared in one category. -/
def categoryRaw (selections : Selections) (options : List String) : Nat :=
  (options.map (fun option => optionPoints (selections option))).sum

/-- Python `round(q, 2)` modelled on ℚ: round `q * 100` to the nearest
integer, then divide by 100. -/
def round2 (q : ℚ) : ℚ := ((round (q * 100) : ℤ) : ℚ) / 100

/-- The `weighted_score` line of `calculate_score`:
`NEW_WEIGHTS[category] * (category_score / 3 / len(...) if len(...) > 0 else 0)`. -/
def weightedScore (selections : Selections) (category : String × List String) : ℚ :=
  ((NEW_WEIGHTS.lookup category.1).getD 0) *
    (if category.2.length > 0 then
      ((categoryRaw selections category.2 : ℚ) / 3 / (category.2.length : ℚ))
    else 0)

/-- Models `calculate_score` from src/main.py: returns the rounded total score and
the per-category mapping of rounded weighted scores (the dict is modelled as
an association list in category order). -/
def calculate_score (selections : Selections) : ℚ × List (String × ℚ) :=
  (round2 ((CATEGORIES.map (fun category => weightedScore selections category)).sum),
   CATEGORIES.map (fun category => (category.1, round2 (weightedScore selections category))))

/-! ### The submission store -/

/-- The relational store the submission is written to: the four data tables
plus the two lookup tables and the serial-id counters. -/
structure DB where
  games : List (Nat × String × String)
  submissions : List (Nat × Nat × ℚ × String)
  submission_features : List (Nat × Nat × String)
  game_languages : List (Nat × Nat)
  accessibility_features : List (Nat × String)
  languages : List (Nat × String)
  next_game_id : Nat
  next_submission_id : Nat
deriving DecidableEq

/-- Models `SELECT id FROM <table> WHERE name = %s` followed by `fetchone()[0]`:
the id of the first row whose name matches, `none` when there is no row
(the Python code raises there). -/
def lookup_id (table : List (Nat × String)) (name : String) : Option Nat :=
  (table.find? (fun row => row.2 = name)).map (fun row => row.1)

/-- The `submission_features` insert loop of `insert_data_supabase`: for
every selection item whose level is not "None", look the feature id up and
build the row; `none` models the exception a failed lookup raises. -/
def insert_features (afTable : List (Nat × String)) (submission_id : Nat) :
    List (String × String) → Option (List (Nat × Nat × String))
  | [] => some []
  | (option, level) :: rest =>
    if level ≠ "None" then
      match lookup_id afTable option with
      | none => none
      | some feature_id =>
        (insert_features afTable submission_id rest).map
          (fun rows => (submission_id, feature_id, level) :: rows)
    else insert_features afTable submission_id rest

/-- The `game_languages` insert loop of `insert_data_supabase`: for every
non-empty language name, look the language id up and build the row; `none`
models the exception a failed lookup raises. -/
def insert_languages (langTable : List (Nat × String)) (game_id : Nat) :
    List String → Option (List (Nat × Nat))
  | [] => some []
  | lang_name :: rest =>
    if lang_name ≠ "" then
      match lookup_id langTable lang_name with
      | none => none
      | some language_id =>
        (insert_languages langTable game_id rest).map
          (fun rows => (game_id, language_id) :: rows)
    else insert_languages langTable game_id rest

/-- Models `insert_data_supabase` from src/main.py: inserts the game, the
submission, the feature rows and the language rows inside one transaction.
`conn.commit()` is reached only when every step succeeded; any exception
(a failed lookup) makes the function return `False` with the transaction
uncommitted, so the store is returned unchanged on that path. -/
def insert_data_supabase (db : DB) (game_name : String) (game_description : String)
    (selections : List (String × String)) (score : ℚ)
    (other_languages : List String) : Bool × DB :=
  let game_id := db.next_game_id
  let submission_id := db.next_submission_id
  match insert_features db.accessibility_features submission_id selections with
  | none => (false, db)
  | some feat_rows =>
    match insert_languages db.languages game_id other_languages with
    | none => (false, db)
    | some lang_rows =>
      (true,
       { db with
         games := db.games ++ [(game_id, game_name, game_description)]
         submissions := db.submissions ++ [(submission_id, game_id, score, "pending")]
         submission_features := db.submission_features ++ feat_rows
         game_languages := db.game_languages ++ lang_rows
         next_game_id := game_id + 1
         next_submission_id := submission_id + 1 })

/-- The outcome `handle_submit` reports to the user. -/
inductive SubmitOutcome where
  | validation_error : SubmitOutcome
  | success : ℚ → List (String × ℚ) → SubmitOutcome
  | insert_error : SubmitOutcome
deriving DecidableEq

/-- Models `handle_submit` from src/main.py: an empty game name is rejected before
the score is calculated or any persistence call is made; otherwise the score
is computed and `insert_data_supabase` decides success or failure. -/
def handle_submit (game_name : String) (selections : List (String × String))
    (db : DB) (other_languages : List String) : SubmitOutcome × DB :=
  if game_name = "" then (.validation_error, db)
  else
    let sc := calculate_score (fun o => selections.lookup o)
    match insert_data_supabase db game_name "" selections sc.1 other_languages with
    | (true, db2) => (.success sc.1 sc.2, db2)
    | (false, db2) => (.insert_error, db2)

/-! ### The session flow around the language-catalog read -/

/-- The state of the form session after the startup steps of `main`. -/
inductive SessionState where
  | aborted : SessionState
  | active : List String → Bool → SessionState
deriving DecidableEq

/-- The `SELECT name FROM languages` read in `main`: on success the ordered
names from the lookup table, on a raised exception (`read_ok = false`) the
`except` branch sets `languages_list = []` and surfaces an error message. -/
def fetch_languages_list (db : DB) (read_ok : Bool) : List String × Bool :=
  if read_ok then (db.languages.map (fun lang => lang.2), false)
  else ([], true)

/-- The startup control flow of `main` in src/main.py: a failed connection
returns early (aborted session); otherwise the session stays active with
the fetched language list and whether a fetch error was surfaced. -/
def main_session (conn_ok : Bool) (db : DB) (read_ok : Bool) : SessionState :=
  if conn_ok then
    let fl := fetch_languages_list db read_ok
    .active fl.1 fl.2
  else .aborted

/-! ### Spec-side formulas and auxiliary inputs -/

/-- The levels-to-points table exactly as the claim words it: 0, 1, 2, 3
points for the levels None, Basic, Customizable, Extensive. -/
def specLevelPoints : Option String → Nat
  | some "Basic" => 1
  | some "Customizable" => 2
  | some "Extensive" => 3
  | _ => 0

/-- The rawPointSum of the claim: summing the level points over the options
declared in one category. -/
def specRawPointSum (sel : Selections) (opts : List String) : Nat :=
  (opts.map (fun o => specLevelPoints (sel o))).sum

/-- The per-category score formula exactly as the claim words it:
equalShare times rawPointSum divided by 3 divided by the option count,
with equalShare the 20-point pool divided by the number of categories. -/
def specCategoryScore (sel : Selections) (c : String × List String) : ℚ :=
  (20 / (CATEGORIES.length : ℚ)) *
    ((specRawPointSum sel c.2 : ℚ) / 3 / (c.2.length : ℚ))

/-- One selection raised (or changed) at a single option, every other option
held fixed. -/
def updateSel (sel : Selections) (opt lvl : String) : Selections :=
  fun o => if o = opt then some lvl else sel o

/-- The position of a level in the order None < Basic < Customizable <
Extensive (any other string sits at the bottom with None). -/
def levelRank (lvl : String) : Nat :=
  if lvl = "Basic" then 1
  else if lvl = "Customizable" then 2
  else if lvl = "Extensive" then 3
  else 0

/-- The selection rating every option Extensive. -/
def extSel : Selections := fun _ => some "Extensive"

/-- The selection rating every option None. -/
def noneSel : Selections := fun _ => some "None"

/-- The scenario selection of the spec: Subtitles and Closed Captions at
Basic, all other options at None. -/
def selC8 : Selections :=
  fun o => if o = "Subtitles & Closed Captions" then some "Basic" else some "None"

/-- A selection that also carries a key outside the static taxonomy. -/
def junkSel : Selections :=
  fun o => if o = "Definitely Not A Feature" then some "Extensive" else some "None"

/-- The Visual Accessibility category with its seven options, the head of
the taxonomy. -/
def visualCategory : String × List String :=
  ("Visual Accessibility",
   ["Subtitles & Closed Captions",
    "Colorblind Modes",
    "UI Customization",
    "Brightness & Contrast Adjustment",
    "Motion Blur Reduction",
    "Field of View (FOV) Adjustment",
    "Screen Shake Reduction"])

/-- A small store whose language lookup table is empty, so any language
insert must fail. -/
def db0 : DB :=
  { games := []
    submissions := []
    submission_features := []
    game_languages := []
    accessibility_features := [(1, "Aim Assist")]
    languages := []
    next_game_id := 1
    next_submission_id := 1 }

/-! ### Helper lemmas -/

lemma EQUAL_WEIGHT_eq : EQUAL_WEIGHT = 10 / 3 := by
  norm_num [EQUAL_WEIGHT, NUM_CATEGORIES, CATEGORIES]

lemma optionPoints_le_three (v : Option String) : optionPoints v ≤ 3 := by
  unfold optionPoints
  split_ifs <;> omega

lemma categoryRaw_le_max (sel : Selections) (opts : List String) :
    categoryRaw sel opts ≤ 3 * opts.length := by
  unfold categoryRaw
  induction opts with
  | nil => simp
  | cons o rest ih =>
    have h1 := optionPoints_le_three (sel o)
    simp only [List.map_cons, List.sum_cons, List.length_cons]
    omega

lemma mem_CATEGORIES_weight {c : String × List String} (hc : c ∈ CATEGORIES) :
    (NEW_WEIGHTS.lookup c.1).getD 0 = EQUAL_WEIGHT ∧ 0 < c.2.length := by
  simp only [CATEGORIES, List.mem_cons, List.not_mem_nil, or_false] at hc
  rcases hc with rfl | rfl | rfl | rfl | rfl | rfl <;>
    exact ⟨by rfl, by decide⟩

lemma NEW_WEIGHTS_lookup_nonneg (s : String) :
    0 ≤ (NEW_WEIGHTS.lookup s).getD 0 := by
  unfold NEW_WEIGHTS CATEGORIES
  simp only [List.map_cons, List.map_nil, List.lookup]
  repeat' split
  all_goals norm_num [EQUAL_WEIGHT_eq]

lemma round_mono_rat {a b : ℚ} (h : a ≤ b) : round a ≤ round b := by
  rw [round_eq, round_eq]
  exact Int.floor_mono (by linarith)

lemma round2_mono {a b : ℚ} (h : a ≤ b) : round2 a ≤ round2 b := by
  unfold round2
  have hr : round (a * 100) ≤ round (b * 100) := round_mono_rat (by linarith)
  have hq : ((round (a * 100) : ℤ) : ℚ) ≤ ((round (b * 100) : ℤ) : ℚ) := by exact_mod_cast hr
  linarith

lemma round2_zero : round2 0 = 0 := by
  norm_num [round2]

lemma round2_nonneg {a : ℚ} (h : 0 ≤ a) : 0 ≤ round2 a := by
  have := round2_mono h
  rwa [round2_zero] at this

lemma round2_twenty : round2 20 = 20 := by
  norm_num [round2, round_eq]

lemma round2_equal_weight : round2 EQUAL_WEIGHT = 333 / 100 := by
  rw [EQUAL_WEIGHT_eq]
  norm_num [round2, round_eq]

lemma weightedScore_nonneg (sel : Selections) (c : String × List String) :
    0 ≤ weightedScore sel c := by
  unfold weightedScore
  apply mul_nonneg (NEW_WEIGHTS_lookup_nonneg c.1)
  split
  · positivity
  · exact le_refl 0

lemma weightedScore_le (sel : Selections) {c : String × List String}
    (hc : c ∈ CATEGORIES) : weightedScore sel c ≤ EQUAL_WEIGHT := by
  obtain ⟨hw, hlen⟩ := mem_CATEGORIES_weight hc
  unfold weightedScore
  rw [hw, if_pos hlen]
  have hn : (0 : ℚ) < (c.2.length : ℚ) := by exact_mod_cast hlen
  have hraw : ((categoryRaw sel c.2 : ℚ)) ≤ 3 * (c.2.length : ℚ) := by
    exact_mod_cast categoryRaw_le_max sel c.2
  have hdiv : (categoryRaw sel c.2 : ℚ) / 3 / (c.2.length : ℚ) ≤ 1 := by
    rw [div_div, div_le_one (by positivity)]
    linarith
  have hW : (0 : ℚ) ≤ EQUAL_WEIGHT := by rw [EQUAL_WEIGHT_eq]; norm_num
  calc EQUAL_WEIGHT * ((categoryRaw sel c.2 : ℚ) / 3 / (c.2.length : ℚ))
      ≤ EQUAL_WEIGHT * 1 := mul_le_mul_of_nonneg_left hdiv hW
    _ = EQUAL_WEIGHT := mul_one _

lemma weightedScore_mono {sel1 sel2 : Selections} (c : String × List String)
    (h : categoryRaw sel1 c.2 ≤ categoryRaw sel2 c.2) :
    weightedScore sel1 c ≤ weightedScore sel2 c := by
  unfold weightedScore
  apply mul_le_mul_of_nonneg_left _ (NEW_WEIGHTS_lookup_nonneg c.1)
  split
  · rename_i hlen
    have hq : (categoryRaw sel1 c.2 : ℚ) ≤ (categoryRaw sel2 c.2 : ℚ) := by
      exact_mod_cast h
    gcongr
  · exact le_refl 0

lemma specLevelPoints_eq (v : Option String) : specLevelPoints v = optionPoints v := by
  unfold specLevelPoints optionPoints
  split <;> simp_all

lemma specRawPointSum_eq (sel : Selections) (opts : List String) :
    specRawPointSum sel opts = categoryRaw sel opts := by
  unfold specRawPointSum categoryRaw
  simp [specLevelPoints_eq]

lemma weightedScore_eq_spec (sel : Selections) {c : String × List String}
    (hc : c ∈ CATEGORIES) : weightedScore sel c = specCategoryScore sel c := by
  obtain ⟨hw, hlen⟩ := mem_CATEGORIES_weight hc
  unfold weightedScore specCategoryScore
  rw [hw, if_pos hlen, specRawPointSum_eq]
  unfold EQUAL_WEIGHT NUM_CATEGORIES
  rfl

lemma categoryRaw_congr {sel1 sel2 : Selections} (opts : List String)
    (h : ∀ o ∈ opts, sel1 o = sel2 o) :
    categoryRaw sel1 opts = categoryRaw sel2 opts := by
  unfold categoryRaw
  congr 1
  exact List.map_congr_left (fun o ho => by rw [h o ho])

lemma categoryRaw_extensive (sel : Selections) (opts : List String)
    (h : ∀ o ∈ opts, sel o = some "Extensive") :
    categoryRaw sel opts = 3 * opts.length := by
  unfold categoryRaw
  induction opts with
  | nil => simp
  | cons o rest ih =>
    have ho := h o (List.mem_cons_self o rest)
    have hrest := ih (fun x hx => h x (List.mem_cons_of_mem o hx))
    simp only [List.map_cons, List.sum_cons, List.length_cons, ho]
    rw [hrest]
    simp [optionPoints]
    ring

lemma categoryRaw_none (sel : Selections) (opts : List String)
    (h : ∀ o ∈ opts, sel o = none ∨ sel o = some "None") :
    categoryRaw sel opts = 0 := by
  unfold categoryRaw
  induction opts with
  | nil => simp
  | cons o rest ih =>
    have ho := h o (List.mem_cons_self o rest)
    have hrest := ih (fun x hx => h x (List.mem_cons_of_mem o hx))
    simp only [List.map_cons, List.sum_cons]
    rw [hrest]
    rcases ho with ho | ho <;> simp [ho, optionPoints]

lemma weightedScore_extensive (sel : Selections) {c : String × List String}
    (hc : c ∈ CATEGORIES) (h : ∀ o ∈ c.2, sel o = some "Extensive") :
    weightedScore sel c = EQUAL_WEIGHT := by
  obtain ⟨hw, hlen⟩ := mem_CATEGORIES_weight hc
  unfold weightedScore
  rw [hw, if_pos hlen, categoryRaw_extensive sel c.2 h]
  have hn : (0 : ℚ) < (c.2.length : ℚ) := by exact_mod_cast hlen
  have hne : (c.2.length : ℚ) ≠ 0 := ne_of_gt hn
  push_cast
  field_simp

lemma weightedScore_zero (sel : Selections) (c : String × List String)
    (h : categoryRaw sel c.2 = 0) : weightedScore sel c = 0 := by
  unfold weightedScore
  rw [h]
  split <;> simp

lemma optionPoints_some_eq_rank (lvl : String) :
    optionPoints (some lvl) = levelRank lvl := by
  unfold optionPoints levelRank
  split_ifs <;> simp_all

lemma categoryRaw_updateSel_mono (sel : Selections) (opt l1 l2 : String)
    (h : levelRank l1 ≤ levelRank l2) (opts : List String) :
    categoryRaw (updateSel sel opt l1) opts ≤ categoryRaw (updateSel sel opt l2) opts := by
  unfold categoryRaw
  apply List.sum_le_sum
  intro o _
  unfold updateSel
  split
  · rw [optionPoints_some_eq_rank, optionPoints_some_eq_rank]
    exact h
  · exact le_refl _

/-! ### The claims -/

/-- C1: for every selection mapping, calculate_score computes each category
score as equalShare * (rawPointSum / 3 / optionCountInCategory), with
equalShare = 20 / numCategories and rawPointSum summing 0/1/2/3 points for
the levels None/Basic/Customizable/Extensive over the options declared in
the category; the total is the sum of the weighted category scores rounded
to 2 decimals and each reported category score is also rounded to 2
decimals. -/
theorem calculate_score_matches_spec_formula (sel : Selections) :
    calculate_score sel =
      (round2 ((CATEGORIES.map (fun c => specCategoryScore sel c)).sum),
       CATEGORIES.map (fun c => (c.1, round2 (specCategoryScore sel c)))) := by
  have h1 : CATEGORIES.map (fun c => weightedScore sel c) =
      CATEGORIES.map (fun c => specCategoryScore sel c) :=
    List.map_congr_left (fun c hc => weightedScore_eq_spec sel hc)
  have h2 : CATEGORIES.map (fun c => (c.1, round2 (weightedScore sel c))) =
      CATEGORIES.map (fun c => (c.1, round2 (specCategoryScore sel c))) :=
    List.map_congr_left (fun c hc => by rw [weightedScore_eq_spec sel hc])
  unfold calculate_score
  rw [h1, h2]

/-- C4: when every option of the taxonomy is rated Extensive the total
score equals the full 20-point pool. -/
theorem all_extensive_full_pool (sel : Selections)
    (h : ∀ c ∈ CATEGORIES, ∀ o ∈ c.2, sel o = some "Extensive") :
    (calculate_score sel).1 = 20 := by
  have hconst : CATEGORIES.map (fun c => weightedScore sel c) =
      CATEGORIES.map (fun _ => EQUAL_WEIGHT) :=
    List.map_congr_left (fun c hc => weightedScore_extensive sel hc (h c hc))
  show round2 ((CATEGORIES.map (fun c => weightedScore sel c)).sum) = 20
  rw [hconst]
  rw [show ((CATEGORIES.map (fun _ => EQUAL_WEIGHT)).sum) = 20 by
    norm_num [CATEGORIES, EQUAL_WEIGHT_eq]]
  exact round2_twenty

/-- Witness for C4: the all-Extensive selection reaches the full pool. -/
theorem all_extensive_full_pool_witness :
    (∀ c ∈ CATEGORIES, ∀ o ∈ c.2, extSel o = some "Extensive") ∧
    (calculate_score extSel).1 = 20 :=
  ⟨fun _ _ _ _ => rfl, all_extensive_full_pool extSel (fun _ _ _ _ => rfl)⟩

/-- C5: when every option is rated None (or absent) the total score is 0
and every per-category score is 0. -/
theorem all_none_zero_scores (sel : Selections)
    (h : ∀ c ∈ CATEGORIES, ∀ o ∈ c.2, sel o = none ∨ sel o = some "None") :
    (calculate_score sel).1 = 0 ∧ ∀ p ∈ (calculate_score sel).2, p.2 = 0 := by
  have hz : ∀ c ∈ CATEGORIES, weightedScore sel c = 0 := fun c hc =>
    weightedScore_zero sel c (categoryRaw_none sel c.2 (h c hc))
  constructor
  · have hconst : CATEGORIES.map (fun c => weightedScore sel c) =
        CATEGORIES.map (fun _ => (0 : ℚ)) :=
      List.map_congr_left (fun c hc => hz c hc)
    show round2 ((CATEGORIES.map (fun c => weightedScore sel c)).sum) = 0
    rw [hconst]
    norm_num [CATEGORIES, round2_zero]
  · intro p hp
    obtain ⟨c, hc, rfl⟩ := List.mem_map.mp hp
    simp [hz c hc, round2_zero]

/-- Witness for C5: the all-None selection scores 0 everywhere. -/
theorem all_none_zero_scores_witness :
    (calculate_score noneSel).1 = 0 ∧ ∀ p ∈ (calculate_score noneSel).2, p.2 = 0 :=
  all_none_zero_scores noneSel (fun _ _ _ _ => Or.inr rfl)

/-- C6: raising a single option level (in the order None < Basic <
Customizable < Extensive) while holding every other option fixed never
decreases the total score nor any per-category score. -/
theorem raising_level_monotone (sel : Selections) (opt l1 l2 : String)
    (h : levelRank l1 ≤ levelRank l2) :
    (calculate_score (updateSel sel opt l1)).1 ≤ (calculate_score (updateSel sel opt l2)).1 ∧
    List.Forall₂ (fun p q => p.1 = q.1 ∧ p.2 ≤ q.2)
      (calculate_score (updateSel sel opt l1)).2 (calculate_score (updateSel sel opt l2)).2 := by
  have hw : ∀ c ∈ CATEGORIES,
      weightedScore (updateSel sel opt l1) c ≤ weightedScore (updateSel sel opt l2) c :=
    fun c _ => weightedScore_mono c (categoryRaw_updateSel_mono sel opt l1 l2 h c.2)
  constructor
  · show round2 ((CATEGORIES.map (fun c => weightedScore (updateSel sel opt l1) c)).sum) ≤
      round2 ((CATEGORIES.map (fun c => weightedScore (updateSel sel opt l2) c)).sum)
    exact round2_mono (List.sum_le_sum hw)
  · show List.Forall₂ _
      (CATEGORIES.map (fun c => (c.1, round2 (weightedScore (updateSel sel opt l1) c))))
      (CATEGORIES.map (fun c => (c.1, round2 (weightedScore (updateSel sel opt l2) c))))
    rw [List.forall₂_map_right_iff, List.forall₂_map_left_iff, List.forall₂_same]
    intro c hc
    exact ⟨rfl, round2_mono (hw c hc)⟩

/-- Witness for C6: raising Aim Assist from None to Basic above the
all-None selection. -/
theorem raising_level_monotone_witness :
    levelRank "None" ≤ levelRank "Basic" ∧
    ((calculate_score (updateSel noneSel "Aim Assist" "None")).1 ≤
        (calculate_score (updateSel noneSel "Aim Assist" "Basic")).1 ∧
      List.Forall₂ (fun p q => p.1 = q.1 ∧ p.2 ≤ q.2)
        (calculate_score (updateSel noneSel "Aim Assist" "None")).2
        (calculate_score (updateSel noneSel "Aim Assist" "Basic")).2) :=
  ⟨by decide, raising_level_monotone noneSel "Aim Assist" "None" "Basic" (by decide)⟩

/-- C7: for every selection mapping the total score lies in the interval
from 0 to 20 and every per-category score lies between 0 and the equal
share. -/
theorem score_bounds (sel : Selections) :
    (0 ≤ (calculate_score sel).1 ∧ (calculate_score sel).1 ≤ 20) ∧
    ∀ p ∈ (calculate_score sel).2, 0 ≤ p.2 ∧ p.2 ≤ EQUAL_WEIGHT := by
  have hnn : ∀ c ∈ CATEGORIES, (0 : ℚ) ≤ weightedScore sel c :=
    fun c _ => weightedScore_nonneg sel c
  have hub : ∀ c ∈ CATEGORIES, weightedScore sel c ≤ EQUAL_WEIGHT :=
    fun c hc => weightedScore_le sel hc
  refine ⟨⟨?_, ?_⟩, ?_⟩
  · show 0 ≤ round2 ((CATEGORIES.map (fun c => weightedScore sel c)).sum)
    apply round2_nonneg
    apply List.sum_nonneg
    intro x hx
    obtain ⟨c, hc, rfl⟩ := List.mem_map.mp hx
    exact hnn c hc
  · show round2 ((CATEGORIES.map (fun c => weightedScore sel c)).sum) ≤ 20
    have hsum : (CATEGORIES.map (fun c => weightedScore sel c)).sum ≤
        (CATEGORIES.map (fun _ => EQUAL_WEIGHT)).sum := List.sum_le_sum hub
    have hconst : ((CATEGORIES.map (fun _ => EQUAL_WEIGHT)).sum) = 20 := by
      norm_num [CATEGORIES, EQUAL_WEIGHT_eq]
    have h20 : (CATEGORIES.map (fun c => weightedScore sel c)).sum ≤ 20 := by
      rw [hconst] at hsum
      exact hsum
    calc round2 ((CATEGORIES.map (fun c => weightedScore sel c)).sum)
        ≤ round2 20 := round2_mono h20
      _ = 20 := round2_twenty
  · intro p hp
    obtain ⟨c, hc, rfl⟩ := List.mem_map.mp hp
    refine ⟨round2_nonneg (hnn c hc), ?_⟩
    calc round2 (weightedScore sel c)
        ≤ round2 EQUAL_WEIGHT := round2_mono (hub c hc)
      _ = 333 / 100 := round2_equal_weight
      _ ≤ EQUAL_WEIGHT := by rw [EQUAL_WEIGHT_eq]; norm_num

/-- Witness for C7: the bounds at the all-Extensive selection and its
Visual Accessibility entry. -/
theorem score_bounds_witness :
    (0 ≤ (calculate_score extSel).1 ∧ (calculate_score extSel).1 ≤ 20) ∧
    (0 ≤ ("Visual Accessibility", round2 (weightedScore extSel visualCategory)).2 ∧
      ("Visual Accessibility", round2 (weightedScore extSel visualCategory)).2 ≤ EQUAL_WEIGHT) :=
  ⟨(score_bounds extSel).1, (score_bounds extSel).2 _ (List.Mem.head _)⟩

/-- C8: for the scenario rating only Subtitles and Closed Captions at
Basic, the Visual Accessibility category carries the equal share 20/6, its
weighted score is that share times 1/3/7, and the total score rounds to
0.16. -/
theorem basic_subtitles_scenario :
    EQUAL_WEIGHT = 20 / 6 ∧
    weightedScore selC8 visualCategory = EQUAL_WEIGHT * ((1 : ℚ) / 3 / 7) ∧
    calculate_score selC8 =
      (16 / 100,
       [("Visual Accessibility", 16 / 100), ("Audio Accessibility", 0),
        ("Motor Accessibility", 0), ("Cognitive Accessibility", 0),
        ("General Accessibility Features", 0), ("Localization", 0)]) := by
  refine ⟨by rw [EQUAL_WEIGHT_eq]; norm_num, ?_, ?_⟩
  · simp [weightedScore, visualCategory, NEW_WEIGHTS, CATEGORIES, categoryRaw,
      optionPoints, selC8]
  · simp [calculate_score, CATEGORIES, weightedScore, categoryRaw, optionPoints,
      NEW_WEIGHTS, EQUAL_WEIGHT, NUM_CATEGORIES, selC8, round2]
    norm_num [round_eq]

/-- C2: whenever the submit transaction fails (the operation reports an
error), the store is exactly what it was before: no game, submission,
feature or language row from the attempt is persisted, since commit is
never reached on the error path. -/
theorem insert_rollback_on_failure (db : DB) (game_name game_description : String)
    (selections : List (String × String)) (score : ℚ) (other_languages : List String)
    (h : (insert_data_supabase db game_name game_description selections score other_languages).1 = false) :
    (insert_data_supabase db game_name game_description selections score other_languages).2 = db := by
  unfold insert_data_supabase at h ⊢
  rcases hf : insert_features db.accessibility_features db.next_submission_id selections with _ | feat
  · simp [hf]
  · rcases hl : insert_languages db.languages db.next_game_id other_languages with _ | lang
    · simp [hf, hl]
    · simp [hf, hl] at h

/-- Witness for C2: a language name with no lookup row makes the submit
fail and leaves the store untouched. -/
theorem insert_rollback_on_failure_witness :
    (insert_data_supabase db0 "Celeste" "" [("Aim Assist", "Basic")] 0 ["Klingon"]).1 = false ∧
    (insert_data_supabase db0 "Celeste" "" [("Aim Assist", "Basic")] 0 ["Klingon"]).2 = db0 :=
  ⟨by decide,
   insert_rollback_on_failure db0 "Celeste" "" [("Aim Assist", "Basic")] 0 ["Klingon"] (by decide)⟩

/-- C3: submitting with an empty game name reports a validation error and
returns before any persistence call, writing zero rows. -/
theorem empty_game_name_validation (selections : List (String × String)) (db : DB)
    (other_languages : List String) :
    handle_submit "" selections db other_languages = (SubmitOutcome.validation_error, db) := by
  simp [handle_submit]

/-- C9: when the language-catalog read fails the session continues with an
empty language list and a surfaced error message instead of aborting. -/
theorem language_fetch_failure_continues (db : DB) :
    main_session true db false = SessionState.active [] true ∧
    main_session true db false ≠ SessionState.aborted := by
  constructor
  · rfl
  · simp [main_session, fetch_languages_list]

/-- C10: calculate_score is total over arbitrary selection mappings: a
value outside the three scoring levels contributes 0 points, keys outside
the taxonomy are ignored, and the result always lists exactly the six
taxonomy categories. -/
theorem calculate_score_total (sel : Selections) :
    (∀ v : Option String, v ≠ some "Basic" → v ≠ some "Customizable" →
      v ≠ some "Extensive" → optionPoints v = 0) ∧
    (∀ sel2 : Selections, (∀ c ∈ CATEGORIES, ∀ o ∈ c.2, sel o = sel2 o) →
      calculate_score sel = calculate_score sel2) ∧
    (calculate_score sel).2.map Prod.fst =
      ["Visual Accessibility", "Audio Accessibility", "Motor Accessibility",
       "Cognitive Accessibility", "General Accessibility Features", "Localization"] := by
  refine ⟨?_, ?_, ?_⟩
  · intro v h1 h2 h3
    simp [optionPoints, h1, h2, h3]
  · intro sel2 h
    have hws : ∀ c ∈ CATEGORIES, weightedScore sel c = weightedScore sel2 c := by
      intro c hc
      unfold weightedScore
      rw [categoryRaw_congr c.2 (h c hc)]
    have h1 : CATEGORIES.map (fun c => weightedScore sel c) =
        CATEGORIES.map (fun c => weightedScore sel2 c) :=
      List.map_congr_left (fun c hc => hws c hc)
    have h2 : CATEGORIES.map (fun c => (c.1, round2 (weightedScore sel c))) =
        CATEGORIES.map (fun c => (c.1, round2 (weightedScore sel2 c))) :=
      List.map_congr_left (fun c hc => by rw [hws c hc])
    unfold calculate_score
    rw [h1, h2]
  · rfl

/-- Witness for C10: a junk value scores 0, a key outside the taxonomy
changes nothing, and the six category names are always reported. -/
theorem calculate_score_total_witness :
    optionPoints (some "Garbage") = 0 ∧
    calculate_score junkSel = calculate_score noneSel ∧
    (calculate_score junkSel).2.map Prod.fst =
      ["Visual Accessibility", "Audio Accessibility", "Motor Accessibility",
       "Cognitive Accessibility", "General Accessibility Features", "Localization"] :=
  ⟨(calculate_score_total junkSel).1 (some "Garbage") (by decide) (by decide) (by decide),
   (calculate_score_total junkSel).2.1 noneSel (by decide),
   (calculate_score_total junkSel).2.2⟩

end GASEngineForm
